import Mathlib

/-!
Shallow embedding of the coinbase order-book core (src/model.rs):
message decoding (Level2Update / OrderBook snapshots) and the single
mutating operation `update_order_book`, together with proofs of the
specified properties.

Modelling conventions:
* f64 values are modelled exactly: a float is NaN, a signed infinity, or a
  rational value (IEEE rounding of decimal literals is not modelled; the
  claims under study depend only on comparison/zero-test structure).
* serde_json `Value` is an inductive with objects as association lists
  (first-key lookup; duplicate keys out of scope).
* Rust `str::parse::<f64>` is modelled by `parseF` following the grammar
  documented for the standard library (sign, inf/infinity/nan tokens,
  decimal mantissa, optional exponent), case-insensitively.
* chrono `DateTime<Utc>` parsing of the `time` field is modelled at the
  structural level by `parseTime` (RFC 3339 shape; field ranges are not
  modelled — the claims depend only on parse success/failure structure).
* `Vec::sort_by` (a stable sort) is modelled by `List.insertionSort`
  (also a stable sort) over the source's comparator.
-/

/-- String literals used by the source, bound as named constants. -/
def keyType : String := "type"

def keyProductId : String := "product_id"

def keyTime : String := "time"

def keyChanges : String := "changes"

def keyBids : String := "bids"

def keyAsks : String := "asks"

def strBuy : String := "buy"

def strSell : String := "sell"

def strEmpty : String := ""

/-- Character lists for the special float tokens accepted by Rust float parsing. -/
def infChars : List Char := ['i', 'n', 'f']

def infinityChars : List Char := ['i', 'n', 'f', 'i', 'n', 'i', 't', 'y']

def nanChars : List Char := ['n', 'a', 'n']

/-- Model of an f64 value: NaN, a signed infinity (`inf true` is negative
infinity), or an exact rational value. -/
inductive F where
  | nan : F
  | inf (neg : Bool) : F
  | val (q : ℚ) : F
deriving DecidableEq

/-- Model of f64 `== 0.`: false on NaN and infinities, rational zero test otherwise. -/
def F.isZero : F → Bool
  | .val q => q == 0
  | _ => false

/-- Three-way comparison on rationals, as f64 comparison does on ordered values. -/
def qcmp (a b : ℚ) : Ordering :=
  if a < b then .lt else if a = b then .eq else .gt

/-- Model of f64 partial comparison: `none` iff either side is NaN. -/
def F.pcmp : F → F → Option Ordering
  | .nan, _ => none
  | _, .nan => none
  | .inf b₁, .inf b₂ => some (if b₁ = b₂ then .eq else if b₁ then .lt else .gt)
  | .inf b₁, .val _ => some (if b₁ then .lt else .gt)
  | .val _, .inf b₂ => some (if b₂ then .gt else .lt)
  | .val a, .val b => some (qcmp a b)

/-- Sign handling for numeric tokens: strip one leading sign if present. -/
def splitSign : List Char → Bool × List Char
  | '-' :: cs => (true, cs)
  | '+' :: cs => (false, cs)
  | cs => (false, cs)

/-- Value of a digit run (most significant first). -/
def digitsToNat (cs : List Char) : ℕ :=
  cs.foldl (fun n c => 10 * n + (c.toNat - 48)) 0

/-- Mantissa of a decimal token: `digits`, `digits.digits?`, or `.digits`.
Returns the digit run's value together with the number of fractional digits,
so the token's value is `mantissa / 10 ^ fracLen`. -/
def parseMantissa (cs : List Char) : Option (ℕ × ℕ) :=
  let p := cs.span Char.isDigit
  match p.2 with
  | [] => if p.1.isEmpty then none else some (digitsToNat p.1, 0)
  | '.' :: frac =>
      if frac.all Char.isDigit && !(p.1.isEmpty && frac.isEmpty) then
        some (digitsToNat (p.1 ++ frac), frac.length)
      else none
  | _ => none

/-- Exponent part of a decimal token: optional sign then digits. -/
def parseExpPart (cs : List Char) : Option ℤ :=
  let p := splitSign cs
  if p.2.isEmpty || !p.2.all Char.isDigit then none
  else some (if p.1 then -(digitsToNat p.2 : ℤ) else (digitsToNat p.2 : ℤ))

/-- The exact rational value `± n * 10 ^ e`, built with `mkRat` over integer
arithmetic. -/
def decValue (neg : Bool) (n : ℕ) (e : ℤ) : ℚ :=
  let m : ℤ := if neg then -(n : ℤ) else (n : ℤ)
  if 0 ≤ e then mkRat (m * ((10 ^ e.toNat : ℕ) : ℤ)) 1
  else mkRat m (10 ^ (-e).toNat)

/-- Decimal token with optional exponent (input already lowercased, sign
stripped): the exact value of `sign mantissa e exponent`. -/
def parseDec (neg : Bool) (cs : List Char) : Option ℚ :=
  match cs.splitOn 'e' with
  | [m] => (parseMantissa m).map fun md => decValue neg md.1 (-(md.2 : ℤ))
  | [m, e] => do
      let md ← parseMantissa m
      let ex ← parseExpPart e
      some (decValue neg md.1 (ex - (md.2 : ℤ)))
  | _ => none

/-- Model of Rust `str::parse::<f64>()`, returning the exact parsed value. -/
def parseF (s : String) : Option F :=
  let p := splitSign (s.toList.map Char.toLower)
  if p.2 = infChars || p.2 = infinityChars then some (.inf p.1)
  else if p.2 = nanChars then some .nan
  else (parseDec p.1 p.2).map fun q => .val q

/-- A decoded timestamp; we retain the raw RFC 3339 text. -/
structure Timestamp where
  raw : String
deriving DecidableEq

/-- Shape of an RFC 3339 numeric offset or the Z suffix. -/
def offsetShape : List Char → Bool
  | ['Z'] => true
  | ['+', a, b, ':', c, d] => (a.isDigit && b.isDigit) && (c.isDigit && d.isDigit)
  | ['-', a, b, ':', c, d] => (a.isDigit && b.isDigit) && (c.isDigit && d.isDigit)
  | _ => false

/-- Optional fractional seconds followed by the offset. -/
def fracThenOffset (cs : List Char) : Bool :=
  match cs with
  | '.' :: rest =>
      let p := rest.span Char.isDigit
      !p.1.isEmpty && offsetShape p.2
  | _ => offsetShape cs

/-- RFC 3339 shape: date, `T`, time, optional fraction, offset. -/
def timeShape : List Char → Bool
  | y₁ :: y₂ :: y₃ :: y₄ :: '-' :: m₁ :: m₂ :: '-' :: d₁ :: d₂ :: 'T' ::
      h₁ :: h₂ :: ':' :: n₁ :: n₂ :: ':' :: s₁ :: s₂ :: rest =>
      ([y₁, y₂, y₃, y₄, m₁, m₂, d₁, d₂, h₁, h₂, n₁, n₂, s₁, s₂].all Char.isDigit)
        && fracThenOffset rest
  | _ => false

/-- Model of chrono `DateTime<Utc>` string parsing (structural level). -/
def parseTime (s : String) : Option Timestamp :=
  if timeShape s.toList then some { raw := s } else none

/-- Model of a deserialized serde_json value. -/
inductive Value where
  | null : Value
  | bool (b : Bool) : Value
  | num (n : ℚ) : Value
  | str (s : String) : Value
  | arr (items : List Value) : Value
  | obj (fields : List (String × Value)) : Value

/-- Model of serde_json `Value::as_str`. -/
def Value.as_str : Value → Option String
  | .str s => some s
  | _ => none

/-- Model of serde_json `Value::as_array`. -/
def Value.as_array : Value → Option (List Value)
  | .arr items => some items
  | _ => none

/-- Key lookup in an association list of object fields. -/
def lookupField (fields : List (String × Value)) (key : String) : Option Value :=
  match fields with
  | [] => none
  | kv :: rest => if kv.1 = key then some kv.2 else lookupField rest key

/-- Model of serde_json `Value::get` with a string index. -/
def Value.get (v : Value) (key : String) : Option Value :=
  match v with
  | .obj fields => lookupField fields key
  | _ => none

/-- A level as received from coinbase (source field order: size, then price). -/
structure Level where
  size : F
  price : F
deriving DecidableEq

/-- Model of `Level::from_value`: a 2-element array of numeric strings. -/
def Level.from_value (v : Value) : Option Level :=
  match v.as_array with
  | some [price, size] => do
      let ss ← size.as_str
      let sz ← parseF ss
      let ps ← price.as_str
      let pr ← parseF ps
      some { size := sz, price := pr }
  | _ => none

/-- Order side, parsed from the two-valued token set. -/
inductive OrderSide where
  | buy : OrderSide
  | sell : OrderSide
deriving DecidableEq

/-- Model of `TryFrom<&str> for OrderSide`, with the `Result<_, ()>` collapsed
to `Option` as the call sites do via `.ok()`. -/
def OrderSide.try_from (s : String) : Option OrderSide :=
  if s = strBuy then some .buy
  else if s = strSell then some .sell
  else none

/-- An order book diff as received from coinbase. -/
structure OrderBookDiff where
  order_side : OrderSide
  level : Level
deriving DecidableEq

/-- A l2update as received from coinbase. -/
structure Level2Update where
  type_ : String
  product_id : String
  changes : List OrderBookDiff
  time : Timestamp
deriving DecidableEq

/-- Model of the per-change closure inside `Level2Update::from_value`:
a 3-tuple of side token, price token, size token. -/
def parseChange (v : Value) : Option OrderBookDiff :=
  match v.as_array with
  | some [order_side, price, size] => do
      let sideStr ← order_side.as_str
      let os ← OrderSide.try_from sideStr
      let ss ← size.as_str
      let sz ← parseF ss
      let ps ← price.as_str
      let pr ← parseF ps
      some { order_side := os, level := { size := sz, price := pr } }
  | _ => none

/-- Model of `Level2Update::from_value`. -/
def Level2Update.from_value (v : Value) : Option Level2Update := do
  let tv ← v.get keyType
  let type_ ← tv.as_str
  let pv ← v.get keyProductId
  let product_id ← pv.as_str
  let tmv ← v.get keyTime
  let ts ← tmv.as_str
  let time ← parseTime ts
  let chv ← v.get keyChanges
  let changesArr ← chv.as_array
  let changes := changesArr.filterMap parseChange
  some { type_ := type_, product_id := product_id, changes := changes, time := time }

/-- Order book state. -/
structure OrderBook where
  type_ : String
  product_id : String
  bids : List Level
  asks : List Level
deriving DecidableEq

/-- Model of Rust `OrderBook::default()`. -/
def OrderBook.default : OrderBook :=
  { type_ := strEmpty, product_id := strEmpty, bids := [], asks := [] }

/-- Model of the inner `parse_levels` helper of `OrderBook::from_value`. -/
def parse_levels (v : Value) : Option (List Level) :=
  (v.as_array).map fun xs => xs.filterMap Level.from_value

/-- Model of `OrderBook::from_value`. -/
def OrderBook.from_value (v : Value) : Option OrderBook := do
  let tv ← v.get keyType
  let type_ ← tv.as_str
  let pv ← v.get keyProductId
  let product_id ← pv.as_str
  let bv ← v.get keyBids
  let bids ← parse_levels bv
  let av ← v.get keyAsks
  let asks ← parse_levels av
  some { type_ := type_, product_id := product_id, bids := bids, asks := asks }

/-- The source's sort comparator on prices:
`a.price.partial_cmp(&b.price).unwrap_or(Ordering::Less)`. -/
def cmpF (a b : F) : Ordering :=
  (F.pcmp a b).getD Ordering.lt

/-- The comparator lifted to levels, exactly as passed to `sort_by`. -/
def cmpLevel (a b : Level) : Ordering :=
  cmpF a.price b.price

/-- The (reflexive) relation a list sorted by `cmpLevel` satisfies pairwise. -/
def levelLe (a b : Level) : Prop :=
  cmpLevel a b ≠ Ordering.gt

instance : DecidableRel levelLe := fun a b => by
  unfold levelLe; infer_instance

/-- Model of `Vec::sort_by` with the source comparator (stable sort). -/
def sortLevels (l : List Level) : List Level :=
  List.insertionSort levelLe l

/-- The sort step at the end of `update_order_book`: both sides are sorted. -/
def sortBook (book : OrderBook) : OrderBook :=
  { book with asks := sortLevels book.asks, bids := sortLevels book.bids }

/-- One iteration of the diff loop in `update_order_book`: skip zero-size
diffs, push buy diffs onto `asks` and sell diffs onto `bids`. -/
def applyChange (book : OrderBook) (change : OrderBookDiff) : OrderBook :=
  if change.level.size.isZero then book
  else
    match change.order_side with
    | .buy => { book with asks := book.asks ++ [change.level] }
    | .sell => { book with bids := book.bids ++ [change.level] }

/-- Model of `update_order_book` applied to one already-received frame.
In the source the only fallible step is receiving the frame from the
client; once a frame is in hand the body is total (every branch ends in
`Ok(())`), so the model is a total function on the frame. The
neither-decodes branch returns early, before the sort; the update and
snapshot branches both fall through to the sort. -/
def update_order_book (book : OrderBook) (frame : Value) : OrderBook :=
  match Level2Update.from_value frame with
  | some l2update => sortBook (l2update.changes.foldl applyChange book)
  | none =>
    match OrderBook.from_value frame with
    | some new_snapshot => sortBook new_snapshot
    | none => book

/-! ### Order-theoretic facts about the comparator -/

/-- The intended ascending order on prices, stated independently of the
comparator: negative infinity below everything, positive infinity above
everything, rational values ordered as rationals.  NaN is below nothing
(it is excluded by the NaN-freeness hypotheses wherever this is used). -/
def F.fle : F → F → Prop
  | .inf true, _ => True
  | _, .inf false => True
  | .val a, .val b => a ≤ b
  | _, _ => False

theorem qcmp_ne_gt {a b : ℚ} : qcmp a b ≠ Ordering.gt ↔ a ≤ b := by
  unfold qcmp
  rcases lt_trichotomy a b with h | h | h
  · simp [h, le_of_lt h]
  · simp [h]
  · simp [not_lt.2 h.le, h.ne', not_le.2 h]

theorem qcmp_eq_lt {a b : ℚ} : qcmp a b = Ordering.lt ↔ a < b := by
  unfold qcmp
  rcases lt_trichotomy a b with h | h | h
  · simp [h]
  · simp [h, lt_irrefl]
  · simp [not_lt.2 h.le, h.ne', not_lt.2 h.le]

theorem qcmp_eq_eq {a b : ℚ} : qcmp a b = Ordering.eq ↔ a = b := by
  unfold qcmp
  rcases lt_trichotomy a b with h | h | h
  · simp [h, h.ne]
  · simp [h]
  · simp [not_lt.2 h.le, h.ne']

/-- Transitivity of the comparator's non-strict relation, needing only the
middle element to be NaN-free. -/
theorem cmpF_trans {a b c : F} (hb : b ≠ F.nan)
    (h₁ : cmpF a b ≠ Ordering.gt) (h₂ : cmpF b c ≠ Ordering.gt) :
    cmpF a c ≠ Ordering.gt := by
  rcases a with _ | ba | qa <;> rcases b with _ | bb | qb <;> rcases c with _ | bc | qc <;>
    try exact absurd rfl hb
  all_goals
    try cases ba
  all_goals
    try cases bb
  all_goals
    try cases bc
  all_goals simp_all [cmpF, F.pcmp, qcmp_ne_gt]
  exact h₁.trans h₂

/-- The comparator's non-strict relation is total on every pair, NaN included
(on NaN pairs it holds in both directions). -/
theorem cmpF_total (a b : F) : cmpF a b ≠ Ordering.gt ∨ cmpF b a ≠ Ordering.gt := by
  rcases a with _ | ba | qa <;> rcases b with _ | bb | qb <;>
    try cases ba <;>
    try cases bb
  all_goals try cases bb
  all_goals simp_all [cmpF, F.pcmp, qcmp_ne_gt]
  exact le_total qa qb

/-- The spec-side price order implies the comparator's non-strict relation. -/
theorem cle_of_fle {a b : F} (h : F.fle a b) : cmpF a b ≠ Ordering.gt := by
  rcases a with _ | ba | qa <;> rcases b with _ | bb | qb <;>
    try cases ba <;>
    try cases bb
  all_goals try cases bb
  all_goals simp_all [cmpF, F.pcmp, F.fle, qcmp_ne_gt]

/-- On NaN-free values the comparator's non-strict relation implies the
spec-side price order. -/
theorem fle_of_cle {a b : F} (ha : a ≠ F.nan) (hb : b ≠ F.nan)
    (h : cmpF a b ≠ Ordering.gt) : F.fle a b := by
  rcases a with _ | ba | qa <;> rcases b with _ | bb | qb
  all_goals try exact absurd rfl ha
  all_goals try exact absurd rfl hb
  all_goals try cases ba
  all_goals try cases bb
  all_goals simp_all [cmpF, F.pcmp, F.fle, qcmp_ne_gt]

/-- Spec-side ascending-price relation on levels. -/
def priceLe (a b : Level) : Prop := F.fle a.price b.price

theorem levelLe_trans {a b c : Level} (hb : b.price ≠ F.nan)
    (h₁ : levelLe a b) (h₂ : levelLe b c) : levelLe a c :=
  cmpF_trans hb h₁ h₂

theorem levelLe_total (a b : Level) : levelLe a b ∨ levelLe b a :=
  cmpF_total a.price b.price

theorem levelLe_of_priceLe {a b : Level} (h : priceLe a b) : levelLe a b :=
  cle_of_fle h

theorem priceLe_of_levelLe {a b : Level} (ha : a.price ≠ F.nan)
    (hb : b.price ≠ F.nan) (h : levelLe a b) : priceLe a b :=
  fle_of_cle ha hb h

theorem sorted_orderedInsert (a : Level) (l : List Level)
    (hl : ∀ x ∈ l, x.price ≠ F.nan) (hs : List.Sorted levelLe l) :
    List.Sorted levelLe (List.orderedInsert levelLe a l) := by
  induction l with
  | nil => simp [List.orderedInsert]
  | cons b t ih =>
    simp only [List.orderedInsert]
    by_cases h : levelLe a b
    · rw [if_pos h]
      refine List.sorted_cons.2 ⟨?_, hs⟩
      intro x hx
      rcases List.mem_cons.1 hx with rfl | hx'
      · exact h
      · exact levelLe_trans (hl b (List.mem_cons_self b t)) h ((List.sorted_cons.1 hs).1 x hx')
    · rw [if_neg h]
      have hs' := (List.sorted_cons.1 hs).2
      have hba : levelLe b a := (levelLe_total a b).resolve_left h
      refine List.sorted_cons.2
        ⟨?_, ih (fun x hx => hl x (List.mem_cons_of_mem b hx)) hs'⟩
      intro x hx
      rcases (List.mem_orderedInsert levelLe).1 hx with rfl | hx'
      · exact hba
      · exact (List.sorted_cons.1 hs).1 x hx'

theorem sorted_sortLevels (l : List Level) (hl : ∀ x ∈ l, x.price ≠ F.nan) :
    List.Sorted levelLe (sortLevels l) := by
  induction l with
  | nil => simp [sortLevels, List.insertionSort]
  | cons a t ih =>
    have ht : ∀ x ∈ t, x.price ≠ F.nan := fun x hx => hl x (List.mem_cons_of_mem a hx)
    have hst : ∀ x ∈ List.insertionSort levelLe t, x.price ≠ F.nan := fun x hx =>
      ht x ((List.mem_insertionSort levelLe).1 hx)
    simpa [sortLevels, List.insertionSort] using
      sorted_orderedInsert a (List.insertionSort levelLe t) hst (ih ht)

/-- The sort step yields a list ascending in the spec-side price order,
provided its elements are NaN-free. -/
theorem sorted_priceLe_sortLevels (l : List Level)
    (hl : ∀ x ∈ l, x.price ≠ F.nan) : List.Sorted priceLe (sortLevels l) := by
  refine List.Pairwise.imp_of_mem ?_ (sorted_sortLevels l hl)
  intro a b ha hb h
  exact priceLe_of_levelLe (hl a ((List.mem_insertionSort levelLe).1 ha))
    (hl b ((List.mem_insertionSort levelLe).1 hb)) h

/-- The sort step permutes its input (it is a sort: no level is gained or lost). -/
theorem sortLevels_perm (l : List Level) : (sortLevels l).Perm l :=
  List.perm_insertionSort levelLe l

/-- The sort step leaves an already comparator-sorted list unchanged. -/
theorem sortLevels_eq_of_sorted {l : List Level} (h : List.Sorted levelLe l) :
    sortLevels l = l :=
  List.Sorted.insertionSort_eq h

/-! ### Characterization of the diff loop -/

/-- A diff the loop inserts into `asks`: a buy diff of nonzero size. -/
def keepBuy (c : OrderBookDiff) : Bool :=
  match c.order_side with
  | .buy => !c.level.size.isZero
  | .sell => false

/-- A diff the loop inserts into `bids`: a sell diff of nonzero size. -/
def keepSell (c : OrderBookDiff) : Bool :=
  match c.order_side with
  | .buy => false
  | .sell => !c.level.size.isZero

/-- The diff loop appends the surviving buy levels to `asks` and the
surviving sell levels to `bids`, in change order, touching nothing else. -/
theorem foldl_applyChange (cs : List OrderBookDiff) (book : OrderBook) :
    cs.foldl applyChange book =
      { book with
        asks := book.asks ++ (cs.filter keepBuy).map (·.level),
        bids := book.bids ++ (cs.filter keepSell).map (·.level) } := by
  induction cs generalizing book with
  | nil => simp
  | cons c t ih =>
    rw [List.foldl_cons, ih]
    rcases c with ⟨side, lvl⟩
    cases side <;> by_cases hz : lvl.size.isZero <;>
      simp_all [applyChange, keepBuy, keepSell, List.filter_cons]

/-! ### The three branches of `update_order_book` -/

theorem update_order_book_update {book : OrderBook} {frame : Value}
    {u : Level2Update} (h : Level2Update.from_value frame = some u) :
    update_order_book book frame = sortBook (u.changes.foldl applyChange book) := by
  unfold update_order_book
  rw [h]

theorem update_order_book_snapshot {book : OrderBook} {frame : Value}
    {s : OrderBook} (h₁ : Level2Update.from_value frame = none)
    (h₂ : OrderBook.from_value frame = some s) :
    update_order_book book frame = sortBook s := by
  unfold update_order_book
  rw [h₁, h₂]

theorem update_order_book_noop {book : OrderBook} {frame : Value}
    (h₁ : Level2Update.from_value frame = none)
    (h₂ : OrderBook.from_value frame = none) :
    update_order_book book frame = book := by
  unfold update_order_book
  rw [h₁, h₂]

instance (a b : F) : Decidable (F.fle a b) :=
  match a, b with
  | .inf true, .nan => isTrue trivial
  | .inf true, .inf true => isTrue trivial
  | .inf true, .inf false => isTrue trivial
  | .inf true, .val _ => isTrue trivial
  | .nan, .inf false => isTrue trivial
  | .inf false, .inf false => isTrue trivial
  | .val qa, .val qb => inferInstanceAs (Decidable (qa ≤ qb))
  | .val _, .inf false => isTrue trivial
  | .nan, .nan => isFalse fun h => h
  | .nan, .inf true => isFalse fun h => h
  | .nan, .val _ => isFalse fun h => h
  | .inf false, .nan => isFalse fun h => h
  | .inf false, .inf true => isFalse fun h => h
  | .inf false, .val _ => isFalse fun h => h
  | .val _, .nan => isFalse fun h => h
  | .val _, .inf true => isFalse fun h => h

instance : DecidableRel priceLe := fun a b =>
  inferInstanceAs (Decidable (F.fle a.price b.price))

/-! ### Concrete example data (frames from the source's tests and the spec) -/

def strL2update : String := "l2update"

def strSnapshot : String := "snapshot"

def strBTCUSD : String := "BTC-USD"

def exTime : String := "2022-08-04T15:25:05.010758Z"

def exBuyPrice : String := "22356.270000"

def exZeroSize : String := "0.00000000"

def exSellPrice : String := "22356.300000"

def exOneSize : String := "1.00000000"

/-- The l2update frame from the source's `parse_l2update` test / spec scenario. -/
def exUpdateFrame : Value :=
  .obj [(keyType, .str strL2update), (keyProductId, .str strBTCUSD),
        (keyChanges, .arr
          [.arr [.str strBuy, .str exBuyPrice, .str exZeroSize],
           .arr [.str strSell, .str exSellPrice, .str exOneSize]]),
        (keyTime, .str exTime)]

/-- The decode of `exUpdateFrame`. -/
def exUpdate : Level2Update :=
  { type_ := strL2update, product_id := strBTCUSD,
    changes :=
      [{ order_side := .buy,
         level := { size := F.val 0, price := F.val (mkRat 2235627 100) } },
       { order_side := .sell,
         level := { size := F.val 1, price := F.val (mkRat 223563 10) } }],
    time := { raw := exTime } }

/-- A frame whose payload is missing the `type` field. -/
def exNoTypeFrame : Value :=
  .obj [(keyProductId, .str strBTCUSD)]

def exP1 : String := "10101.10"

def exS1 : String := "0.45"

def exP2 : String := "10102.55"

def exS2 : String := "0.577"

/-- The snapshot frame from the spec scenario. -/
def exSnapFrame : Value :=
  .obj [(keyType, .str strSnapshot), (keyProductId, .str strBTCUSD),
        (keyBids, .arr [.arr [.str exP1, .str exS1]]),
        (keyAsks, .arr [.arr [.str exP2, .str exS2]])]

/-- A nonempty, sorted book used as a starting state in witnesses. -/
def exBook : OrderBook :=
  { type_ := strSnapshot, product_id := strBTCUSD,
    bids := [{ size := F.val 1, price := F.val (mkRat 101011 10) }],
    asks := [{ size := F.val 2, price := F.val (mkRat 1010255 100) }] }

/-! ### Claims -/

/-- C1: for every decoded Update, every surviving (nonzero-size) buy diff's
level is appended to `asks` and every surviving sell diff's level to `bids`
(the inverted cross-mapping), in change order, before the final sort. -/
theorem update_appends_buy_to_asks_sell_to_bids
    (book : OrderBook) (frame : Value) (u : Level2Update)
    (h : Level2Update.from_value frame = some u) :
    update_order_book book frame =
      sortBook { book with
        asks := book.asks ++ (u.changes.filter keepBuy).map (·.level),
        bids := book.bids ++ (u.changes.filter keepSell).map (·.level) } := by
  rw [update_order_book_update h, foldl_applyChange]

/-- C1 witness: the spec scenario. The zero-size buy change is dropped; the
sell change of size 1 at 22356.30 is appended to `bids` of the empty book. -/
theorem update_appends_buy_to_asks_sell_to_bids_witness :
    update_order_book OrderBook.default exUpdateFrame =
      { type_ := strEmpty, product_id := strEmpty,
        bids := [{ size := F.val 1, price := F.val (mkRat 223563 10) }],
        asks := [] } := by
  have h := update_appends_buy_to_asks_sell_to_bids OrderBook.default exUpdateFrame
    exUpdate (by decide)
  rw [h]
  decide

/-- C2: a frame that decodes as neither an Update nor a Snapshot leaves the
book completely unchanged (and the operation is total: no error is modelled
because, once a frame is in hand, the source's function always returns Ok). -/
theorem unrecognized_frame_is_noop (book : OrderBook) (frame : Value)
    (h₁ : Level2Update.from_value frame = none)
    (h₂ : OrderBook.from_value frame = none) :
    update_order_book book frame = book :=
  update_order_book_noop h₁ h₂

/-- C2 witness: a payload missing the `type` field is dropped with no mutation. -/
theorem unrecognized_frame_is_noop_witness :
    update_order_book exBook exNoTypeFrame = exBook :=
  unrecognized_frame_is_noop exBook exNoTypeFrame (by decide) (by decide)

def strOne : String := "1"

def strTwo : String := "2"

def strZero : String := "0"

/-- A snapshot frame whose bids arrive in descending price order. -/
def exSnapDescFrame : Value :=
  .obj [(keyType, .str strSnapshot), (keyProductId, .str strBTCUSD),
        (keyBids, .arr [.arr [.str strTwo, .str strOne],
                        .arr [.str strOne, .str strOne]]),
        (keyAsks, .arr [])]

/-- The decode of `exSnapDescFrame`: bids still in ingestion (descending) order. -/
def exSnapDesc : OrderBook :=
  { type_ := strSnapshot, product_id := strBTCUSD,
    bids := [{ size := F.val 1, price := F.val 2 },
             { size := F.val 1, price := F.val 1 }],
    asks := [] }

/-- C4 counterexample: the snapshot branch does not keep ingestion order.
`exSnapDescFrame` decodes (only) as a Snapshot with descending bids, yet the
book after applying it differs from the decoded snapshot: its bids have been
re-sorted ascending, because the snapshot branch falls through to the sort. -/
theorem snapshot_resort_counterexample :
    OrderBook.from_value exSnapDescFrame = some exSnapDesc ∧
    Level2Update.from_value exSnapDescFrame = none ∧
    update_order_book OrderBook.default exSnapDescFrame ≠ exSnapDesc ∧
    update_order_book OrderBook.default exSnapDescFrame =
      { exSnapDesc with bids := [{ size := F.val 1, price := F.val 1 },
                                 { size := F.val 1, price := F.val 2 }] } :=
  ⟨by decide, by decide, by decide, by decide⟩

/-- C4 (amended): a frame decoding as a Snapshot replaces the whole book —
`product_id` (and type) wholesale from the snapshot — and both sides are then
re-sorted by the price comparator. -/
theorem snapshot_replaces_then_sorts (book : OrderBook) (frame : Value)
    (s : OrderBook) (h₁ : Level2Update.from_value frame = none)
    (h₂ : OrderBook.from_value frame = some s) :
    update_order_book book frame =
      { type_ := s.type_, product_id := s.product_id,
        bids := sortLevels s.bids, asks := sortLevels s.asks } :=
  update_order_book_snapshot h₁ h₂

/-- The book decoded from the spec's snapshot scenario (singleton sides, for
which the re-sort is the identity). -/
def exSnapBook : OrderBook :=
  { type_ := strSnapshot, product_id := strBTCUSD,
    bids := [{ size := F.val (mkRat 45 100), price := F.val (mkRat 101011 10) }],
    asks := [{ size := F.val (mkRat 577 1000), price := F.val (mkRat 1010255 100) }] }

/-- C4 witness: the spec scenario — empty book plus the snapshot
`{bids:[[10101.10,0.45]], asks:[[10102.55,0.577]]}`. -/
theorem snapshot_replaces_then_sorts_witness :
    update_order_book OrderBook.default exSnapFrame = exSnapBook := by
  have h := snapshot_replaces_then_sorts OrderBook.default exSnapFrame exSnapBook
    (by decide) (by decide)
  rw [h]
  decide

/-- C6: applying a decoded Update all of whose diffs have size 0 only
re-sorts: the level multisets of both sides are unchanged, and on an
already-sorted (ascending-price) book the whole operation is the identity. -/
theorem all_zero_update_preserves_levels (book : OrderBook) (frame : Value)
    (u : Level2Update) (h : Level2Update.from_value frame = some u)
    (hz : ∀ c ∈ u.changes, c.level.size.isZero = true) :
    ((update_order_book book frame).bids.Perm book.bids ∧
     (update_order_book book frame).asks.Perm book.asks) ∧
    (List.Sorted priceLe book.bids → List.Sorted priceLe book.asks →
      update_order_book book frame = book) := by
  have hb : u.changes.filter keepBuy = [] := by
    rw [List.filter_eq_nil_iff]
    intro c hc
    have hcz := hz c hc
    rcases c with ⟨side, lvl⟩
    cases side <;> simp_all [keepBuy]
  have hs : u.changes.filter keepSell = [] := by
    rw [List.filter_eq_nil_iff]
    intro c hc
    have hcz := hz c hc
    rcases c with ⟨side, lvl⟩
    cases side <;> simp_all [keepSell]
  have hfold : u.changes.foldl applyChange book = book := by
    rw [foldl_applyChange, hb, hs]
    simp
  have hup : update_order_book book frame = sortBook book := by
    rw [update_order_book_update h, hfold]
  refine ⟨⟨?_, ?_⟩, ?_⟩
  · rw [hup]; exact sortLevels_perm book.bids
  · rw [hup]; exact sortLevels_perm book.asks
  · intro hsb hsa
    rw [hup]
    have h₁ : sortLevels book.bids = book.bids :=
      sortLevels_eq_of_sorted (hsb.imp fun hpq => levelLe_of_priceLe hpq)
    have h₂ : sortLevels book.asks = book.asks :=
      sortLevels_eq_of_sorted (hsa.imp fun hpq => levelLe_of_priceLe hpq)
    unfold sortBook
    rw [h₁, h₂]

/-- An l2update frame all of whose changes have size 0. -/
def exAllZeroFrame : Value :=
  .obj [(keyType, .str strL2update), (keyProductId, .str strBTCUSD),
        (keyChanges, .arr
          [.arr [.str strBuy, .str exBuyPrice, .str exZeroSize],
           .arr [.str strSell, .str exSellPrice, .str strZero]]),
        (keyTime, .str exTime)]

/-- The decode of `exAllZeroFrame`. -/
def exAllZeroU : Level2Update :=
  { type_ := strL2update, product_id := strBTCUSD,
    changes :=
      [{ order_side := .buy,
         level := { size := F.val 0, price := F.val (mkRat 2235627 100) } },
       { order_side := .sell,
         level := { size := F.val 0, price := F.val (mkRat 223563 10) } }],
    time := { raw := exTime } }

/-- C6 witness: an all-zero update leaves a concrete sorted book unchanged. -/
theorem all_zero_update_preserves_levels_witness :
    update_order_book exBook exAllZeroFrame = exBook := by
  have h := all_zero_update_preserves_levels exBook exAllZeroFrame exAllZeroU
    (by decide) (by decide)
  exact h.2 (by simp [exBook]) (by simp [exBook])

/-! ### The sort invariant (C3) -/

/-- Both sides of the book are ascending in price whenever they are NaN-free. -/
def sortedIfNanFree (book : OrderBook) : Prop :=
  ((∀ x ∈ book.bids, x.price ≠ F.nan) → List.Sorted priceLe book.bids) ∧
  ((∀ x ∈ book.asks, x.price ≠ F.nan) → List.Sorted priceLe book.asks)

theorem sortedIfNanFree_sortBook (mid : OrderBook) : sortedIfNanFree (sortBook mid) := by
  constructor
  · intro hb
    apply sorted_priceLe_sortLevels
    intro x hx
    exact hb x ((List.mem_insertionSort levelLe).2 hx)
  · intro ha
    apply sorted_priceLe_sortLevels
    intro x hx
    exact ha x ((List.mem_insertionSort levelLe).2 hx)

theorem update_preserves_sortedIfNanFree (book : OrderBook) (frame : Value)
    (h : sortedIfNanFree book) : sortedIfNanFree (update_order_book book frame) := by
  rcases hu : Level2Update.from_value frame with _ | u
  · rcases hs : OrderBook.from_value frame with _ | s
    · rw [update_order_book_noop hu hs]; exact h
    · rw [update_order_book_snapshot hu hs]; exact sortedIfNanFree_sortBook s
  · rw [update_order_book_update hu]; exact sortedIfNanFree_sortBook _

theorem foldl_sortedIfNanFree (frames : List Value) (book : OrderBook)
    (h : sortedIfNanFree book) :
    sortedIfNanFree (frames.foldl update_order_book book) := by
  induction frames generalizing book with
  | nil => exact h
  | cons f t ih => exact ih _ (update_preserves_sortedIfNanFree book f h)

/-- C3: after every mutating apply (frame decoding as Update or Snapshot),
and after any sequence of applied frames starting from the default book,
both `bids` and `asks` are ascending in price, provided the resulting
prices are NaN-free. -/
theorem book_sorted_after_mutation :
    (∀ (book : OrderBook) (frame : Value),
      ((Level2Update.from_value frame).isSome ∨ (OrderBook.from_value frame).isSome) →
      (∀ x ∈ (update_order_book book frame).bids, x.price ≠ F.nan) →
      (∀ x ∈ (update_order_book book frame).asks, x.price ≠ F.nan) →
      List.Sorted priceLe (update_order_book book frame).bids ∧
      List.Sorted priceLe (update_order_book book frame).asks) ∧
    (∀ frames : List Value,
      (∀ x ∈ (frames.foldl update_order_book OrderBook.default).bids, x.price ≠ F.nan) →
      (∀ x ∈ (frames.foldl update_order_book OrderBook.default).asks, x.price ≠ F.nan) →
      List.Sorted priceLe (frames.foldl update_order_book OrderBook.default).bids ∧
      List.Sorted priceLe (frames.foldl update_order_book OrderBook.default).asks) := by
  constructor
  · intro book frame hdec hb ha
    rcases hu : Level2Update.from_value frame with _ | u
    · rcases hs : OrderBook.from_value frame with _ | s
      · rcases hdec with h₁ | h₂
        · rw [hu] at h₁; exact absurd h₁ (by simp)
        · rw [hs] at h₂; exact absurd h₂ (by simp)
      · rw [update_order_book_snapshot hu hs] at hb ha ⊢
        exact ⟨(sortedIfNanFree_sortBook s).1 hb, (sortedIfNanFree_sortBook s).2 ha⟩
    · rw [update_order_book_update hu] at hb ha ⊢
      exact ⟨(sortedIfNanFree_sortBook _).1 hb, (sortedIfNanFree_sortBook _).2 ha⟩
  · intro frames hb ha
    have h := foldl_sortedIfNanFree frames OrderBook.default
      ⟨fun _ => List.sorted_nil, fun _ => List.sorted_nil⟩
    exact ⟨h.1 hb, h.2 ha⟩

/-- C3 witness: the descending-bids snapshot applied to the default book
yields a book with both sides ascending. -/
theorem book_sorted_after_mutation_witness :
    List.Sorted priceLe (update_order_book OrderBook.default exSnapDescFrame).bids ∧
    List.Sorted priceLe (update_order_book OrderBook.default exSnapDescFrame).asks :=
  book_sorted_after_mutation.1 OrderBook.default exSnapDescFrame
    (Or.inr (by decide)) (by decide) (by decide)

/-! ### Decode characterizations (C5, C8, C9, C10) -/

/-- Helper: when all envelope fields are present and parse, Update decoding
succeeds, with `changes` the element-wise filtered parse of the array. -/
theorem l2u_from_value_eq (v : Value) (ty pid ts : String) (t : Timestamp)
    (cs : List Value)
    (hty : v.get keyType = some (.str ty))
    (hpid : v.get keyProductId = some (.str pid))
    (hts : v.get keyTime = some (.str ts))
    (ht : parseTime ts = some t)
    (hcs : v.get keyChanges = some (.arr cs)) :
    Level2Update.from_value v =
      some { type_ := ty, product_id := pid,
             changes := cs.filterMap parseChange, time := t } := by
  simp [Level2Update.from_value, hty, hpid, hts, ht, hcs, Value.as_str, Value.as_array]

/-- Helper: a well-formed change triple parses to its diff. -/
theorem parseChange_wellFormed (sideTok priceTok sizeTok : String)
    (os : OrderSide) (p sz : F)
    (hside : OrderSide.try_from sideTok = some os)
    (hp : parseF priceTok = some p)
    (hsz : parseF sizeTok = some sz) :
    parseChange (.arr [.str sideTok, .str priceTok, .str sizeTok]) =
      some { order_side := os, level := { size := sz, price := p } } := by
  simp [parseChange, Value.as_array, Value.as_str, hside, hp, hsz]

/-- C5: when the envelope fields `type`, `product_id`, `time`, `changes` all
parse, Update decoding succeeds, preserves `product_id` and `time`, and its
`changes` are exactly the well-formed triples, in order, with failing
elements dropped (decoding succeeds even when none survive); and each
well-formed triple yields its diff. -/
theorem update_decode_characterization :
    (∀ (v : Value) (ty pid ts : String) (t : Timestamp) (cs : List Value),
      v.get keyType = some (.str ty) →
      v.get keyProductId = some (.str pid) →
      v.get keyTime = some (.str ts) →
      parseTime ts = some t →
      v.get keyChanges = some (.arr cs) →
      Level2Update.from_value v =
        some { type_ := ty, product_id := pid,
               changes := cs.filterMap parseChange, time := t }) ∧
    (∀ (sideTok priceTok sizeTok : String) (os : OrderSide) (p sz : F),
      OrderSide.try_from sideTok = some os →
      parseF priceTok = some p →
      parseF sizeTok = some sz →
      parseChange (.arr [.str sideTok, .str priceTok, .str sizeTok]) =
        some { order_side := os, level := { size := sz, price := p } }) :=
  ⟨l2u_from_value_eq, parseChange_wellFormed⟩

/-- C5 witness: the source's test l2update frame decodes to `exUpdate`
(the zero-surviving-size case is exercised by the zero-size buy change
being kept at decode time and the envelope preserved). -/
theorem update_decode_characterization_witness :
    Level2Update.from_value exUpdateFrame = some exUpdate := by
  have h := update_decode_characterization.1 exUpdateFrame strL2update strBTCUSD exTime
    { raw := exTime }
    [.arr [.str strBuy, .str exBuyPrice, .str exZeroSize],
     .arr [.str strSell, .str exSellPrice, .str exOneSize]]
    rfl rfl rfl (by decide) rfl
  rw [h]
  decide

/-- Helper: Snapshot decoding succeeds precisely on frames with string
`type`, string `product_id` and array `bids` and `asks`, the level arrays
being filtered element-wise. -/
theorem ob_from_value_iff (v : Value) (s : OrderBook) :
    OrderBook.from_value v = some s ↔
      ∃ ty pid bs aks,
        v.get keyType = some (.str ty) ∧
        v.get keyProductId = some (.str pid) ∧
        v.get keyBids = some (.arr bs) ∧
        v.get keyAsks = some (.arr aks) ∧
        s = { type_ := ty, product_id := pid,
              bids := bs.filterMap Level.from_value,
              asks := aks.filterMap Level.from_value } := by
  constructor
  · intro h
    rcases htv : v.get keyType with _ | tv
    · simp [OrderBook.from_value, htv] at h
    rcases tv with _ | b' | n' | ty | it' | fl' <;>
      try simp [OrderBook.from_value, htv, Value.as_str] at h
    rcases hpv : v.get keyProductId with _ | pv
    · simp [OrderBook.from_value, htv, hpv, Value.as_str] at h
    rcases pv with _ | b'' | n'' | pid | it'' | fl'' <;>
      try simp [OrderBook.from_value, htv, hpv, Value.as_str] at h
    rcases hbv : v.get keyBids with _ | bv
    · simp [OrderBook.from_value, htv, hpv, hbv, Value.as_str] at h
    rcases bv with _ | b₃ | n₃ | s₃ | bs | fl₃ <;>
      try simp [OrderBook.from_value, htv, hpv, hbv, Value.as_str, Value.as_array,
        parse_levels] at h
    rcases hav : v.get keyAsks with _ | av
    · simp [OrderBook.from_value, htv, hpv, hbv, hav, Value.as_str, Value.as_array,
        parse_levels] at h
    rcases av with _ | b₄ | n₄ | s₄ | aks | fl₄ <;>
      try simp [OrderBook.from_value, htv, hpv, hbv, hav, Value.as_str, Value.as_array,
        parse_levels] at h
    exact ⟨ty, pid, bs, aks, rfl, rfl, rfl, rfl, h.symm⟩
  · rintro ⟨ty, pid, bs, aks, hty, hpid, hbs, haks, rfl⟩
    simp [OrderBook.from_value, hty, hpid, hbs, haks, Value.as_str, Value.as_array,
      parse_levels]

/-- C9: message discrimination is purely structural. Any frame with string
`type` (whatever its value), string `product_id`, parsable `time` and array
`changes` is treated as an Update; Snapshot decoding succeeds exactly on the
structural conditions, and is consulted only when Update decoding fails. -/
theorem discrimination_is_structural :
    (∀ (book : OrderBook) (v : Value) (ty pid ts : String) (t : Timestamp)
        (cs : List Value),
      v.get keyType = some (.str ty) →
      v.get keyProductId = some (.str pid) →
      v.get keyTime = some (.str ts) →
      parseTime ts = some t →
      v.get keyChanges = some (.arr cs) →
      ∃ u, Level2Update.from_value v = some u ∧
        update_order_book book v = sortBook (u.changes.foldl applyChange book)) ∧
    (∀ (v : Value) (s : OrderBook),
      OrderBook.from_value v = some s ↔
        ∃ ty pid bs aks,
          v.get keyType = some (.str ty) ∧
          v.get keyProductId = some (.str pid) ∧
          v.get keyBids = some (.arr bs) ∧
          v.get keyAsks = some (.arr aks) ∧
          s = { type_ := ty, product_id := pid,
                bids := bs.filterMap Level.from_value,
                asks := aks.filterMap Level.from_value }) ∧
    (∀ (book : OrderBook) (v : Value) (s : OrderBook),
      Level2Update.from_value v = none → OrderBook.from_value v = some s →
      update_order_book book v = sortBook s) := by
  refine ⟨?_, ob_from_value_iff, ?_⟩
  · intro book v ty pid ts t cs hty hpid hts ht hcs
    have hu := l2u_from_value_eq v ty pid ts t cs hty hpid hts ht hcs
    exact ⟨_, hu, update_order_book_update hu⟩
  · intro book v s h₁ h₂
    exact update_order_book_snapshot h₁ h₂

/-- A frame whose `type` is "snapshot" and which carries snapshot-shaped
`bids`/`asks` fields, but also a parsable `time` and an array `changes`:
it is nevertheless treated as an Update. -/
def exAmbigFrame : Value :=
  .obj [(keyType, .str strSnapshot), (keyProductId, .str strBTCUSD),
        (keyBids, .arr [.arr [.str exP1, .str exS1]]),
        (keyAsks, .arr [.arr [.str exP2, .str exS2]]),
        (keyChanges, .arr [.arr [.str strSell, .str exSellPrice, .str exOneSize]]),
        (keyTime, .str exTime)]

/-- C9 witness: `exAmbigFrame` (type "snapshot", snapshot fields present)
still decodes and applies as an Update. -/
theorem discrimination_is_structural_witness :
    ∃ u, Level2Update.from_value exAmbigFrame = some u ∧
      update_order_book OrderBook.default exAmbigFrame =
        sortBook (u.changes.foldl applyChange OrderBook.default) :=
  discrimination_is_structural.1 OrderBook.default exAmbigFrame strSnapshot strBTCUSD
    exTime { raw := exTime }
    [.arr [.str strSell, .str exSellPrice, .str exOneSize]]
    rfl rfl rfl (by decide) rfl

/-! ### The comparator and NaN (C7) -/

theorem qcmp_eq_gt {a b : ℚ} : qcmp a b = Ordering.gt ↔ b < a := by
  unfold qcmp
  rcases lt_trichotomy a b with h | h | h
  · simp [h, lt_asymm h]
  · simp [h, lt_irrefl]
  · simp [not_lt.2 h.le, h.ne', h]

theorem cmpF_refl {a : F} (ha : a ≠ F.nan) : cmpF a a = Ordering.eq := by
  rcases a with _ | ba | qa
  · exact absurd rfl ha
  · cases ba <;> simp [cmpF, F.pcmp]
  · simp [cmpF, F.pcmp, qcmp_eq_eq]

theorem cmpF_eq_antisymm {a b : F} (ha : a ≠ F.nan) (hb : b ≠ F.nan)
    (h : cmpF a b = Ordering.eq) : a = b := by
  rcases a with _ | ba | qa <;> rcases b with _ | bb | qb
  all_goals try exact absurd rfl ha
  all_goals try exact absurd rfl hb
  all_goals try cases ba
  all_goals try cases bb
  all_goals simp_all [cmpF, F.pcmp, qcmp_eq_eq]

theorem cmpF_swap {a b : F} (ha : a ≠ F.nan) (hb : b ≠ F.nan) :
    cmpF a b = Ordering.lt ↔ cmpF b a = Ordering.gt := by
  rcases a with _ | ba | qa <;> rcases b with _ | bb | qb
  all_goals try exact absurd rfl ha
  all_goals try exact absurd rfl hb
  all_goals try cases ba
  all_goals try cases bb
  all_goals simp_all [cmpF, F.pcmp, qcmp_eq_lt, qcmp_eq_gt]

/-- C7 counterexample: the comparator maps the NaN/non-NaN pair to "less
than" in both directions, so it is not antisymmetric on NaN inputs: it is
not a total order over all price values including NaN. -/
theorem nan_comparator_not_total_order :
    cmpF F.nan (F.val 1) = Ordering.lt ∧
    cmpF (F.val 1) F.nan = Ordering.lt ∧
    F.nan ≠ F.val 1 ∧
    ¬(∀ a b : F, cmpF a b = Ordering.lt → cmpF b a = Ordering.gt) := by
  refine ⟨rfl, rfl, by decide, fun h => ?_⟩
  have h₁ := h F.nan (F.val 1) rfl
  simp [cmpF, F.pcmp] at h₁

/-- C7 (amended): the comparator is a total function into `Ordering` (the
`unwrap_or` default means the sort step never fails and always yields a
permutation), and restricted to NaN-free price values it is a genuine total
order (reflexive, antisymmetric, swap-consistent, transitive, total). -/
theorem comparator_total_order_on_nonnan :
    (∀ a b c : F, a ≠ F.nan → b ≠ F.nan → c ≠ F.nan →
      (cmpF a a = Ordering.eq) ∧
      (cmpF a b = Ordering.eq → a = b) ∧
      (cmpF a b = Ordering.lt ↔ cmpF b a = Ordering.gt) ∧
      (cmpF a b ≠ Ordering.gt → cmpF b c ≠ Ordering.gt → cmpF a c ≠ Ordering.gt) ∧
      (cmpF a b ≠ Ordering.gt ∨ cmpF b a ≠ Ordering.gt)) ∧
    (∀ l : List Level, (sortLevels l).Perm l) := by
  refine ⟨?_, sortLevels_perm⟩
  intro a b c ha hb hc
  exact ⟨cmpF_refl ha, cmpF_eq_antisymm ha hb, cmpF_swap ha hb,
    cmpF_trans hb, cmpF_total a b⟩

/-- C7 witness: the total-order laws at concrete NaN-free prices. -/
theorem comparator_total_order_on_nonnan_witness :
    cmpF (F.val 1) (F.val 2) ≠ Ordering.gt ∨ cmpF (F.val 2) (F.val 1) ≠ Ordering.gt :=
  (comparator_total_order_on_nonnan.1 (F.val 1) (F.val 2) (F.val 3)
    (by decide) (by decide) (by decide)).2.2.2.2

/-- C8: Level parsing succeeds exactly on 2-element arrays of two string
tokens that parse as numbers, and then yields precisely the parsed price
and size; any other input (non-array, wrong arity, unparsable token)
yields no value. -/
theorem level_parse_characterization (v : Value) (l : Level) :
    Level.from_value v = some l ↔
      ∃ ps ss, v = .arr [.str ps, .str ss] ∧
        parseF ps = some l.price ∧ parseF ss = some l.size := by
  constructor
  · intro h
    rcases v with _ | b | n | s | items | fields
    · simp [Level.from_value, Value.as_array] at h
    · simp [Level.from_value, Value.as_array] at h
    · simp [Level.from_value, Value.as_array] at h
    · simp [Level.from_value, Value.as_array] at h
    · rcases items with _ | ⟨pv, _ | ⟨sv, _ | ⟨x, rest⟩⟩⟩
      · simp [Level.from_value, Value.as_array] at h
      · simp [Level.from_value, Value.as_array] at h
      · rcases pv with _ | b' | n' | ps | it' | fl' <;>
          rcases sv with _ | b'' | n'' | ss | it'' | fl'' <;>
          simp [Level.from_value, Value.as_array, Value.as_str, Option.bind_eq_some] at h
        obtain ⟨sz, hsz, pr, hpr, hl⟩ := h
        refine ⟨ps, ss, rfl, ?_, ?_⟩
        · rw [← hl]; exact hpr
        · rw [← hl]; exact hsz
      · simp [Level.from_value, Value.as_array] at h
    · simp [Level.from_value, Value.as_array] at h
  · rintro ⟨ps, ss, rfl, hp, hs⟩
    simp [Level.from_value, Value.as_array, Value.as_str, hp, hs]

/-- C8 witness: the spec's bid pair parses to the exact floats. -/
theorem level_parse_characterization_witness :
    Level.from_value (.arr [.str exP1, .str exS1]) =
      some { size := F.val (mkRat 45 100), price := F.val (mkRat 101011 10) } :=
  (level_parse_characterization (.arr [.str exP1, .str exS1])
    { size := F.val (mkRat 45 100), price := F.val (mkRat 101011 10) }).2
    ⟨exP1, exS1, rfl, by decide, by decide⟩

/-- C10: price and size tokens must be JSON strings: a level pair or change
triple whose price or size token is a JSON number (or any non-string)
yields no value, even when numerically valid. -/
theorem numeric_tokens_must_be_strings :
    (∀ (pv sv : Value) (l : Level),
      Level.from_value (.arr [pv, sv]) = some l →
      (∃ s, pv = Value.str s) ∧ (∃ s, sv = Value.str s)) ∧
    (∀ (av bv cv : Value) (d : OrderBookDiff),
      parseChange (.arr [av, bv, cv]) = some d →
      (∃ s, av = Value.str s) ∧ (∃ s, bv = Value.str s) ∧ (∃ s, cv = Value.str s)) ∧
    Level.from_value (.arr [.num (mkRat 101011 10), .num (mkRat 45 100)]) = none ∧
    parseChange (.arr [.str strBuy, .num (mkRat 223563 10), .str strOne]) = none := by
  refine ⟨?_, ?_, by decide, by decide⟩
  · intro pv sv l h
    rcases pv with _ | b | n | ps | it | fl <;>
      rcases sv with _ | b' | n' | ss | it' | fl' <;>
        first
          | exact ⟨⟨_, rfl⟩, ⟨_, rfl⟩⟩
          | simp [Level.from_value, Value.as_array, Value.as_str] at h
  · intro av bv cv d h
    rcases av with _ | b | n | sa | it | fl <;>
      rcases bv with _ | b' | n' | sb | it' | fl' <;>
        rcases cv with _ | b'' | n'' | sc | it'' | fl'' <;>
          first
            | exact ⟨⟨_, rfl⟩, ⟨_, rfl⟩, ⟨_, rfl⟩⟩
            | simp [parseChange, Value.as_array, Value.as_str] at h

/-- C10 witness: a successful parse forces both tokens to be strings. -/
theorem numeric_tokens_must_be_strings_witness :
    (∃ s, Value.str exP1 = Value.str s) ∧ (∃ s, Value.str exS1 = Value.str s) :=
  numeric_tokens_must_be_strings.1 (.str exP1) (.str exS1)
    { size := F.val (mkRat 45 100), price := F.val (mkRat 101011 10) } (by decide)
